import Mathlib

/-!
Shallow embedding of the exercise/answer scoring, progress-aggregation and
AI-output parsing subsystem of the Aplikasi-TA backend (FastAPI + Pony ORM).

Sources embedded:
* `Backend/app/database/models.py` — entity shapes (rows below)
* `Backend/app/database/db_service.py` — `save_user_answer`
* `Backend/app/routers/training.py` — `save_student_answers`
* `Backend/app/routers/modules.py` — the live `DELETE /{module_id}` route
  (lines 326–346, delegating to `db_service.delete_module`)
* `Backend/app/services/training_service.py` — exercise validation and the
  three-tier JSON/markdown recovery of `generate_training_exercises`
* `Backend/app/services/ai_service.py` — `parse_comic_script`
* `Backend/app/routers/leaderboard.py`, `Backend/app/routers/progress.py`,
  `Backend/app/services/report_service.py` — accuracy/completion folds

Python ints are modelled as `Int` (client-supplied values) or `Nat` (counts
produced by `len`/`count`/`+= 1`); timestamps are abstract `Nat` ticks; the
relational store is a record of row lists.
-/

namespace Elearn

/-! ## Data model (models.py) -/

/-- Row of `LearningModule` (models.py). Only the fields the embedded
operations inspect are kept; content columns are irrelevant to them. -/
structure ModuleRow where
  id : String
deriving DecidableEq

/-- Row of `ComicPanel` (models.py), reduced to identity and ownership. -/
structure PanelRow where
  id : Nat
  moduleId : String
deriving DecidableEq

/-- Row of `Exercise` (models.py), reduced to the fields the answer-saving
and deletion operations read. -/
structure ExerciseRow where
  id : String
  moduleId : String
  options : List String
  correct_answer : Int
deriving DecidableEq

/-- Row of `User` (models.py), reduced to identity and role. -/
structure UserRow where
  id : Nat
  role : String
deriving DecidableEq

/-- Row of `UserProgress` (models.py). -/
structure ProgressRow where
  id : Nat
  moduleId : String
  userId : Nat
  total_score : Int
  correct_answers : Nat
  total_questions : Nat
  completed : Bool
  started_at : Nat
  completed_at : Option Nat
deriving DecidableEq

/-- Row of `UserAnswer` (models.py). -/
structure AnswerRow where
  id : Nat
  progressId : Nat
  exerciseId : String
  selected_answer : Int
  is_correct : Bool
  answered_at : Nat
deriving DecidableEq

/-- The relational store: one list per entity plus auto-increment counters
for the integer primary keys. -/
structure DBState where
  modules : List ModuleRow
  panels : List PanelRow
  exercises : List ExerciseRow
  users : List UserRow
  progresses : List ProgressRow
  answers : List AnswerRow
  nextProgressId : Nat
  nextAnswerId : Nat
deriving DecidableEq

/-! ## db_service.save_user_answer (db_service.py lines 219–237)

The progress-counter transition applied when one answer is recorded:
`total_questions += 1`; `if is_correct: correct_answers += 1;
total_score += 10`. -/

/-- The `UserProgress` update performed by `DatabaseService.save_user_answer`
for one answer with the given `is_correct` flag. -/
def save_user_answer_step (p : ProgressRow) (is_correct : Bool) : ProgressRow :=
  { p with
    total_questions := p.total_questions + 1
    correct_answers := if is_correct then p.correct_answers + 1 else p.correct_answers
    total_score := if is_correct then p.total_score + 10 else p.total_score }

/-- The `UserAnswer` row created by `DatabaseService.save_user_answer`:
`selected_answer` and `is_correct` are stored exactly as passed in. -/
def save_user_answer_row (answerId : Nat) (progressId : Nat) (exerciseId : String)
    (selected_answer : Int) (is_correct : Bool) (now : Nat) : AnswerRow :=
  { id := answerId, progressId := progressId, exerciseId := exerciseId
    selected_answer := selected_answer, is_correct := is_correct, answered_at := now }

/-! ## training.save_student_answers (training.py lines 980–1086) -/

/-- One element of the client's `user_answers` list, with the `.get` defaults
of training.py lines 1054–1062 already applied (`exercise_id` defaults to
`''`, `selected_answer` to `0`, `is_correct` to `False`). -/
structure AnswerData where
  exercise_id : String
  selected_answer : Int
  is_correct : Bool
deriving DecidableEq

/-- The request body of `POST /save-student-answers` after the `.get`
defaults of training.py lines 992, 1007–1008. -/
structure SaveAnswersRequest where
  module_id : String
  user_answers : List AnswerData
  score : Int
deriving DecidableEq

/-- Outcome of `save_student_answers` (the JSON body on success, the
HTTPException branch otherwise). -/
inductive SaveOutcome where
  | ok (score : Int) (correct_answers : Nat) (total_questions : Nat) (answers_saved : Nat)
  | notStudent
  | missingModuleId
  | moduleNotFound
  | userNotFound
deriving DecidableEq

/-- `sum(1 for ans in user_answers_data if ans.get('is_correct', False))`
(training.py line 1011). -/
def countCorrect (l : List AnswerData) : Nat :=
  (l.filter (fun a => a.is_correct)).length

/-- The answer-insertion loop of training.py lines 1052–1067: for each
submitted answer whose `exercise_id` matches an existing `Exercise` row
(looked up globally, with no check that it belongs to the module), create a
`UserAnswer` row carrying the client's `selected_answer` and `is_correct`;
silently skip unknown exercise ids. Returns the created rows, the next
auto-id and `answers_saved`. -/
def insertAnswers (exercises : List ExerciseRow) (progressId : Nat) (now : Nat) :
    List AnswerData → Nat → List AnswerRow × Nat × Nat
  | [], nextId => ([], nextId, 0)
  | a :: rest, nextId =>
    match exercises.find? (fun e => e.id = a.exercise_id) with
    | some _ =>
      let r := insertAnswers exercises progressId now rest (nextId + 1)
      (save_user_answer_row nextId progressId a.exercise_id a.selected_answer a.is_correct now
          :: r.1,
        r.2.1, r.2.2 + 1)
    | none =>
      insertAnswers exercises progressId now rest nextId

/-- `POST /save-student-answers` (training.py lines 980–1086) as a state
transition: role/presence checks, then create-or-update the `(module, user)`
progress record with `total_score := score`, `correct_answers := correct
count`, `total_questions := len(user_answers)`, `completed := True`,
`completed_at := now`; delete the progress record's old answers; insert the
new ones. On any error branch the transaction rolls back, so the state is
returned unchanged. -/
def save_student_answers (st : DBState) (userId : Nat) (req : SaveAnswersRequest)
    (now : Nat) : SaveOutcome × DBState :=
  match st.users.find? (fun u => u.id = userId) with
  | none => (SaveOutcome.userNotFound, st)
  | some user =>
    if user.role ≠ "student" then (SaveOutcome.notStudent, st)
    else if req.module_id = "" then (SaveOutcome.missingModuleId, st)
    else match st.modules.find? (fun m => m.id = req.module_id) with
      | none => (SaveOutcome.moduleNotFound, st)
      | some _ =>
        let correct_count := countCorrect req.user_answers
        let total_questions := req.user_answers.length
        match st.progresses.find? (fun p => p.moduleId = req.module_id ∧ p.userId = userId) with
        | some p =>
          let p' := { p with
            total_score := req.score
            correct_answers := correct_count
            total_questions := total_questions
            completed := true
            completed_at := some now }
          let progresses' := st.progresses.map (fun q => if q.id = p.id then p' else q)
          let kept := st.answers.filter (fun a => a.progressId ≠ p.id)
          let r := insertAnswers st.exercises p.id now req.user_answers st.nextAnswerId
          (SaveOutcome.ok req.score correct_count total_questions r.2.2,
            { st with
              progresses := progresses'
              answers := kept ++ r.1
              nextAnswerId := r.2.1 })
        | none =>
          let p' : ProgressRow :=
            { id := st.nextProgressId, moduleId := req.module_id, userId := userId
              total_score := req.score, correct_answers := correct_count
              total_questions := total_questions, completed := true
              started_at := now, completed_at := some now }
          let kept := st.answers.filter (fun a => a.progressId ≠ p'.id)
          let r := insertAnswers st.exercises p'.id now req.user_answers st.nextAnswerId
          (SaveOutcome.ok req.score correct_count total_questions r.2.2,
            { st with
              progresses := st.progresses ++ [p']
              answers := kept ++ r.1
              nextProgressId := st.nextProgressId + 1
              nextAnswerId := r.2.1 })

/-! ## Module deletion: the live `DELETE /{module_id}` route

modules.py registers `DELETE /{module_id}` twice. FastAPI/Starlette
dispatches a request to the FIRST registered full match, so the live
handler is the one at modules.py lines 326–346, which delegates to
`DatabaseService.delete_module` (db_service.py lines 176–205) — an
UNGUARDED cascade delete. The second registration (modules.py lines
757–862, the one carrying a `students_attempted` 403 guard) is shadowed
and never executes; it is therefore not embedded.

`db_service.delete_module` returns `False` when the module id is unknown
(the route turns that into a 404) and otherwise deletes, in order: the
module's panels; its exercises — deleting an `Exercise` Pony-cascade-deletes
every `UserAnswer` referencing it, `UserAnswer.exercise` being `Required`,
including answers reached through other modules' progress records; each of
the module's progress records, with that progress's remaining answers
explicitly deleted first; and finally the module row. No condition ever
blocks the deletion. -/

/-- Outcome of the live `DELETE /modules/{module_id}`: success (the route
reports only a message, no counts) or 404. -/
inductive DeleteOutcome where
  | ok
  | notFound
deriving DecidableEq

/-- The live module deletion (modules.py lines 326–346 calling
db_service.py lines 176–205) as a state transition. An answer row survives
iff it neither references one of the module's exercises (cascade from
`exercise.delete()`) nor sits on one of the module's progress records
(explicit loop); panels, exercises, progress rows and the module row of the
target module are removed unconditionally. -/
def delete_module (st : DBState) (mid : String) : DeleteOutcome × DBState :=
  match st.modules.find? (fun m => m.id = mid) with
  | none => (DeleteOutcome.notFound, st)
  | some _ =>
    let modExercises := st.exercises.filter (fun e => e.moduleId = mid)
    let moduleProgresses := st.progresses.filter (fun p => p.moduleId = mid)
    let isModExercise := fun (x : String) => (modExercises.find? (fun e => e.id = x)).isSome
    let isModProgress := fun (pid : Nat) =>
      (moduleProgresses.find? (fun p => p.id = pid)).isSome
    (DeleteOutcome.ok,
      { st with
        answers := st.answers.filter
          (fun a => ¬ isModExercise a.exerciseId ∧ ¬ isModProgress a.progressId)
        progresses := st.progresses.filter (fun p => p.moduleId ≠ mid)
        exercises := st.exercises.filter (fun e => e.moduleId ≠ mid)
        panels := st.panels.filter (fun p => p.moduleId ≠ mid)
        modules := st.modules.filter (fun m => m.id ≠ mid) })

/-! ## Exercise validation (training_service.py lines 473–522 together with the
pydantic `Exercise` model of schemas.py lines 165–185)

The loop over `exercises_data` checks, in order: non-empty `question`;
`options` present with length exactly 4; the correct index taken from key
`correct`, falling back to `correctAnswer` (default 0); non-empty
`explanation`; difficulty normalisation; then constructs the pydantic
`Exercise`, whose `validate_correct_answer` raises when
`v >= len(options)` and whose `correct: int` field raises when the value
cannot be coerced to an integer — both exceptions are caught and the
record skipped. -/

/-- The characters Python's `\s` and `str.strip()` treat as whitespace
(ASCII range). -/
def pyWs (c : Char) : Bool :=
  c = ' ' ∨ c = '\t' ∨ c = '\n' ∨ c = '\r' ∨ c = '\x0b' ∨ c = '\x0c'

/-- `str.strip()` on a character list. -/
def pyStrip (cs : List Char) : List Char :=
  ((cs.dropWhile pyWs).reverse.dropWhile pyWs).reverse

/-- `str.strip()` producing a `String`. -/
def pyStripStr (cs : List Char) : String :=
  String.mk (pyStrip cs)

/-- A loosely-typed value found under the `correct`/`correctAnswer` key of a
candidate record: an integer, a string (coercible when it spells an
integer), JSON null, or anything else. -/
inductive CVal where
  | int (n : Int)
  | str (s : String)
  | null
  | other
deriving DecidableEq

/-- Pydantic lax coercion of a value to `int`: integers pass through,
strings spelling an optionally-signed decimal integer (surrounding
whitespace allowed, as in Python's `int(str)`) are parsed, everything else
fails validation. -/
def pydInt : CVal → Option Int
  | CVal.int n => some n
  | CVal.str s =>
    let t := pyStrip s.data
    let (sign, digits) :=
      match t with
      | '-' :: rest => ((-1 : Int), rest)
      | '+' :: rest => ((1 : Int), rest)
      | _ => ((1 : Int), t)
    if digits ≠ [] ∧ digits.all (fun c => c.isDigit) then
      some (sign * (Nat.ofDigits 10 ((digits.map (fun c => c.toNat - 48)).reverse) : Nat))
    else none
  | CVal.null => none
  | CVal.other => none

/-- One candidate exercise record as the validation loop sees it. `question`
and `explanation` use `""` for absent-or-empty (both falsy in Python);
`options` is `none` when absent; `correct` is `CVal.null` when the key is
absent or null (indistinguishable through `.get`); `correctAnswer` is `none`
when the key is absent. -/
structure ExCandidate where
  question : String
  options : Option (List String)
  correct : CVal
  correctAnswer : Option CVal
  explanation : String
  difficulty : Option String
deriving DecidableEq

/-- A record accepted by the validation loop. -/
structure ValidatedExercise where
  question : String
  options : List String
  correct : Int
  explanation : String
  difficulty : String
deriving DecidableEq

/-- Rejection reasons of the validation loop (each one a logged skip). -/
inductive RejectReason where
  | missingQuestion
  | invalidOptions
  | missingExplanation
  | pydanticError
deriving DecidableEq

/-- The `correct`/`correctAnswer` fallback of training_service.py lines
487–489: `ex_data.get("correct")`, and when that is null/absent
`ex_data.get("correctAnswer", 0)`. -/
def resolvedCorrect (ex : ExCandidate) : CVal :=
  if ex.correct ≠ CVal.null then ex.correct
  else
    match ex.correctAnswer with
    | some v => v
    | none => CVal.int 0

/-- `str.lower()` on ASCII input, character by character. -/
def pyLower (s : String) : String :=
  String.mk (s.data.map Char.toLower)

/-- The difficulty normalisation of training_service.py lines 498–500. -/
def normDifficulty (d0 : Option String) : String :=
  let d := pyLower (d0.getD "medium")
  if d = "beginner" ∨ d = "medium" ∨ d = "advanced" then d else "medium"

/-- The per-record validation of training_service.py lines 473–522: the
short-circuit field checks, the `correct`/`correctAnswer` fallback, the
difficulty coercion, and the pydantic construction whose failures
(uncoercible `correct`, `correct >= len(options)`) are caught and turned
into a skip. -/
def validate_exercise (ex : ExCandidate) : Except RejectReason ValidatedExercise :=
  if ex.question = "" then Except.error RejectReason.missingQuestion
  else match ex.options with
    | none => Except.error RejectReason.invalidOptions
    | some opts =>
      if opts = [] ∨ opts.length ≠ 4 then Except.error RejectReason.invalidOptions
      else if ex.explanation = "" then Except.error RejectReason.missingExplanation
      else
        match pydInt (resolvedCorrect ex) with
        | none => Except.error RejectReason.pydanticError
        | some v =>
          if v ≥ (opts.length : Int) then Except.error RejectReason.pydanticError
          else Except.ok
            { question := ex.question, options := opts, correct := v
              explanation := ex.explanation, difficulty := normDifficulty ex.difficulty }

/-! ## Accuracy folds (leaderboard.py lines 73–81, progress.py lines 83–88,
report_service.py lines 206–253)

Python's float arithmetic is modelled over `ℚ`; `round(x, n)` is modelled
as rounding `x·10ⁿ` to the nearest integer (Python's float representation
and its ties-to-even rule differ from exact rational rounding only at ties,
which none of the statements below exercise). -/

/-- `round(x, 2)` over the rationals. -/
def round2 (x : ℚ) : ℚ := ((round (x * 100) : ℤ) : ℚ) / 100

/-- `round(x, 1)` over the rationals. -/
def round1 (x : ℚ) : ℚ := ((round (x * 10) : ℤ) : ℚ) / 10

/-- `sum(p.total_questions for p in records)`. -/
def sumQuestions (ps : List ProgressRow) : Nat :=
  (ps.map (fun p => p.total_questions)).sum

/-- `sum(p.correct_answers for p in records)`. -/
def sumCorrect (ps : List ProgressRow) : Nat :=
  (ps.map (fun p => p.correct_answers)).sum

/-- `sum(p.total_score for p in records)`. -/
def sumScore (ps : List ProgressRow) : Int :=
  (ps.map (fun p => p.total_score)).sum

/-- `len([p for p in records if p.completed])`. -/
def countCompleted (ps : List ProgressRow) : Nat :=
  (ps.filter (fun p => p.completed)).length

/-- The per-student accuracy of `GET /api/leaderboard/` (leaderboard.py
lines 79–81): `round((correct_answers / total_questions) * 100, 2)` when
`total_questions > 0`, else `0`. -/
def leaderboard_accuracy (ps : List ProgressRow) : ℚ :=
  if sumQuestions ps > 0 then
    round2 ((sumCorrect ps : ℚ) / (sumQuestions ps : ℚ) * 100)
  else 0

/-- The per-student accuracy of `GET /progress/leaderboard` (progress.py
line 88): `round((correct_answers / total_questions * 100) if
total_questions > 0 else 0, 1)`. -/
def progress_accuracy (ps : List ProgressRow) : ℚ :=
  round1 (if sumQuestions ps > 0 then
    (sumCorrect ps : ℚ) / (sumQuestions ps : ℚ) * 100
  else 0)

/-- `completion_rate` of `generate_module_performance_report`
(report_service.py line 248): `completed_attempts / total_attempts * 100`
when there are attempts, else `0`. -/
def completion_rate (ps : List ProgressRow) : ℚ :=
  if ps.length > 0 then (countCompleted ps : ℚ) / (ps.length : ℚ) * 100 else 0

/-- `accuracy_sum` of `generate_module_performance_report` (report_service.py
lines 218–221): the sum over attempts with `total_questions > 0` of each
attempt's own percentage accuracy. -/
def accuracy_sum (ps : List ProgressRow) : ℚ :=
  (ps.map (fun p =>
    if p.total_questions > 0 then
      (p.correct_answers : ℚ) / (p.total_questions : ℚ) * 100
    else 0)).sum

/-- `avg_accuracy` of `generate_module_performance_report`
(report_service.py line 222): `accuracy_sum / total_attempts` when there
are attempts, else `0` — a mean of per-attempt accuracies, not a pooled
ratio. -/
def avg_accuracy (ps : List ProgressRow) : ℚ :=
  if ps.length > 0 then accuracy_sum ps / (ps.length : ℚ) else 0

/-! ## String utilities shared by the parsers

Python string semantics on ASCII input: `\s` and `str.strip()` whitespace is
`[ \t\n\r\f\v]`; case-insensitive matching lowercases both sides. -/

/-- Case-insensitive prefix match: if `pat` (compared lowercased) starts
`cs`, return the remainder. -/
def ciPrefix : List Char → List Char → Option (List Char)
  | [], cs => some cs
  | _ :: _, [] => none
  | p :: ps, c :: cs => if p.toLower = c.toLower then ciPrefix ps cs else none

/-- Exact prefix match returning the remainder. -/
def exactPrefix : List Char → List Char → Option (List Char)
  | [], cs => some cs
  | _ :: _, [] => none
  | p :: ps, c :: cs => if p = c then exactPrefix ps cs else none

/-- Decimal digits to a number (`int(...)` on a digit string). -/
def digitsToNat (ds : List Char) : Nat :=
  ds.foldl (fun acc c => acc * 10 + (c.toNat - 48)) 0

/-! ## ai_service.parse_comic_script (ai_service.py lines 285–315) -/

/-- The `ComicPanel` pydantic schema (schemas.py lines 85–92) as filled in by
`parse_comic_script`. -/
structure Panel where
  id : Nat
  dialogue : String
  narration : String
  visual : String
  setting : String
  mood : String
  composition : String
deriving DecidableEq

/-- Match the panel marker `\*\*Panel\s*(\d+):\*\*` (case-insensitive) at the
head of the input, returning the panel number and the remainder after the
closing `**`. -/
def panelMarker? (cs : List Char) : Option (Nat × List Char) :=
  match cs with
  | '*' :: '*' :: rest =>
    match ciPrefix ['p', 'a', 'n', 'e', 'l'] rest with
    | some rest2 =>
      let rest3 := rest2.dropWhile pyWs
      let digits := rest3.takeWhile Char.isDigit
      match rest3.dropWhile Char.isDigit with
      | ':' :: '*' :: '*' :: rest5 =>
        if digits = [] then none else some (digitsToNat digits, rest5)
      | _ => none
    | none => none
  | _ => none

/-- Scan left to right for the first panel marker; return the text before
it, its number, and the text after it. -/
def findPanelMarker : List Char → Option (List Char × Nat × List Char)
  | [] => none
  | c :: cs =>
    match panelMarker? (c :: cs) with
    | some (n, rest) => some ([], n, rest)
    | none =>
      match findPanelMarker cs with
      | some (pre, n, rest) => some (c :: pre, n, rest)
      | none => none

/-- Successive panel spans: given the number of the marker just consumed and
the text after it, cut the text at each following marker (the fuel, chosen
at least the text length, bounds the number of markers and is never
exhausted). This mirrors `re.finditer` with the non-greedy
`([\s\S]*?)(?=\*\*Panel\s*\d+:\*\*|$)` content group. -/
def panelSpansGo : Nat → Nat → List Char → List (Nat × List Char)
  | 0, n, after => [(n, after)]
  | fuel + 1, n, after =>
    match findPanelMarker after with
    | none => [(n, after)]
    | some (pre, n2, after2) => (n, pre) :: panelSpansGo fuel n2 after2

/-- All `(panel number, raw span)` pairs of the input, in order. -/
def panelSpans (cs : List Char) : List (Nat × List Char) :=
  match findPanelMarker cs with
  | none => []
  | some (_, n, after) => panelSpansGo after.length n after

/-- `cs.takeWhile (· ≠ '\n')` paired with the rest (which starts with `'\n'`
when nonempty). -/
def splitLine (cs : List Char) : List Char × List Char :=
  (cs.takeWhile (fun c => c ≠ '\n'), cs.dropWhile (fun c => c ≠ '\n'))

/-- The negative lookahead `(?!\s*\*\*)` of `extract_field`: after skipping
whitespace (newlines included) the text continues with `**`. -/
def wsThenStars (cs : List Char) : Bool :=
  match cs.dropWhile pyWs with
  | '*' :: '*' :: _ => true
  | _ => false

/-- The repetition `(?:\n(?!\s*\*\*)[^\n]*)*` of `extract_field`: keep
consuming a newline plus the following line while the lookahead fails. -/
def captureLinesGo : Nat → List Char → List Char
  | 0, _ => []
  | fuel + 1, cs =>
    match cs with
    | '\n' :: rest =>
      if wsThenStars rest then []
      else
        let (line, rest2) := splitLine rest
        '\n' :: (line ++ captureLinesGo fuel rest2)
    | _ => []

/-- The capture group `([^\n]*(?:\n(?!\s*\*\*)[^\n]*)*)` applied after the
label's `\s*` has been skipped. -/
def captureValue (cs : List Char) : List Char :=
  let (line0, rest0) := splitLine cs
  line0 ++ captureLinesGo rest0.length rest0

/-- Find the first case-insensitive occurrence of `pat` and return the
remainder after it. -/
def findCI (pat : List Char) : List Char → Option (List Char)
  | [] => ciPrefix pat []
  | c :: cs =>
    match ciPrefix pat (c :: cs) with
    | some rest => some rest
    | none => findCI pat cs

/-- The label `\*\*FIELD:\*\*` as literal characters. -/
def fieldLabel (field : String) : List Char :=
  ('*' :: '*' :: field.data) ++ [':', '*', '*']

/-- The inner `extract_field` of `parse_comic_script` (ai_service.py lines
298–301): search the span, case-insensitively, for
`\*\*FIELD:\*\*\s*([^\n]*(?:\n(?!\s*\*\*)[^\n]*)*)` and return the stripped
capture, or `""` when the label is absent. -/
def extract_field (content : List Char) (field : String) : String :=
  match findCI (fieldLabel field) content with
  | none => ""
  | some rest => pyStripStr (captureValue (rest.dropWhile pyWs))

/-- `x or default` on strings (Python falsiness of `""`). -/
def orElseStr (s : String) (dflt : String) : String :=
  if s = "" then dflt else s

/-- Build one `ComicPanel` from a stripped span (ai_service.py lines
303–311): absent dialogue becomes the literal `"None"`, absent
narration/visual/setting/mood become `""`, absent composition becomes
`"medium shot"`. -/
def buildPanel (n : Nat) (content : List Char) : Panel :=
  { id := n
    dialogue := orElseStr (extract_field content "DIALOGUE") "None"
    narration := orElseStr (extract_field content "NARRATION") ""
    visual := orElseStr (extract_field content "VISUAL") ""
    setting := orElseStr (extract_field content "SETTING") ""
    mood := orElseStr (extract_field content "MOOD") ""
    composition := orElseStr (extract_field content "COMPOSITION") "medium shot" }

/-- `AIService.parse_comic_script` (ai_service.py lines 285–315): one panel
per `**Panel N:**` marker, numbers taken verbatim from the text, fields
extracted per span. -/
def parse_comic_script (script_text : String) : List Panel :=
  (panelSpans script_text.data).map (fun p => buildPanel p.1 (pyStrip p.2))

/-! ## A model of `json.loads` (Python's strict JSON decoder)

Values are a standard JSON tree; numeric literals are kept verbatim (their
arithmetic value is never consumed by the embedded code). The decoder
follows Python's `json.loads` defaults: strict strings (raw control
characters rejected), `NaN`/`Infinity` accepted as constants, no trailing
data. Recursion is fuelled; the fuel `2·length + 2` dominates the decoder's
call depth, every two nested calls consuming at least one character. -/

/-- The `{` character. -/
def lbraceChar : Char := '\x7b'

/-- The `}` character. -/
def rbraceChar : Char := '\x7d'

/-- JSON values as decoded by `json.loads`. -/
inductive Json where
  | null
  | bool (b : Bool)
  | num (lit : String)
  | str (s : String)
  | arr (elems : List Json)
  | obj (fields : List (String × Json))

/-- JSON whitespace (`json.loads` skips only these four characters). -/
def jWs (c : Char) : Bool :=
  c = ' ' ∨ c = '\t' ∨ c = '\n' ∨ c = '\r'

/-- Hex digit value. -/
def hexVal? (c : Char) : Option Nat :=
  if '0' ≤ c ∧ c ≤ '9' then some (c.toNat - 48)
  else if 'a' ≤ c ∧ c ≤ 'f' then some (c.toNat - 87)
  else if 'A' ≤ c ∧ c ≤ 'F' then some (c.toNat - 55)
  else none

/-- Decode a JSON string body (the opening quote already consumed):
escape sequences are decoded, raw control characters below `0x20` are
rejected (strict mode), `\uXXXX` becomes the corresponding code point
(surrogate halves are not paired). -/
def parseJStr : List Char → Except String (String × List Char)
  | [] => Except.error "Unterminated string"
  | '"' :: rest => Except.ok ("", rest)
  | '\\' :: rest =>
    match rest with
    | [] => Except.error "Unterminated string"
    | e :: rest2 =>
      let dec : Option Char :=
        if e = '"' then some '"'
        else if e = '\\' then some '\\'
        else if e = '/' then some '/'
        else if e = 'b' then some '\x08'
        else if e = 'f' then some '\x0c'
        else if e = 'n' then some '\n'
        else if e = 'r' then some '\r'
        else if e = 't' then some '\t'
        else none
      match dec with
      | some c =>
        match parseJStr rest2 with
        | Except.ok (s, r) => Except.ok (String.mk (c :: s.data), r)
        | Except.error m => Except.error m
      | none =>
        if e = 'u' then
          match rest2 with
          | h1 :: h2 :: h3 :: h4 :: rest3 =>
            match hexVal? h1, hexVal? h2, hexVal? h3, hexVal? h4 with
            | some a, some b, some c, some d =>
              let code := ((a * 16 + b) * 16 + c) * 16 + d
              let ch := if code.isValidChar then Char.ofNat code else '�'
              match parseJStr rest3 with
              | Except.ok (s, r) => Except.ok (String.mk (ch :: s.data), r)
              | Except.error m => Except.error m
            | _, _, _, _ => Except.error "Invalid \\uXXXX escape"
          | _ => Except.error "Invalid \\uXXXX escape"
        else Except.error "Invalid \\escape"
  | c :: rest =>
    if c.toNat < 32 then Except.error "Invalid control character"
    else
      match parseJStr rest with
      | Except.ok (s, r) => Except.ok (String.mk (c :: s.data), r)
      | Except.error m => Except.error m

/-- Match the JSON number grammar
`-?(0|[1-9][0-9]*)(\.[0-9]+)?([eE][-+]?[0-9]+)?` at the head of the input,
returning the literal and the remainder. -/
def parseJNum : List Char → Option (List Char × List Char)
  | cs =>
    let (sign, cs1) := match cs with
      | '-' :: rest => (['-'], rest)
      | _ => ([], cs)
    match cs1 with
    | c :: rest =>
      if c = '0' ∨ ('1' ≤ c ∧ c ≤ '9') then
        let (intDigits, cs2) :=
          if c = '0' then ([c], rest)
          else (c :: rest.takeWhile Char.isDigit, rest.dropWhile Char.isDigit)
        let (fracPart, cs3) :=
          match cs2 with
          | '.' :: d :: r =>
            if d.isDigit then
              ('.' :: d :: r.takeWhile Char.isDigit, r.dropWhile Char.isDigit)
            else ([], cs2)
          | _ => ([], cs2)
        let (expPart, cs4) :=
          match cs3 with
          | e :: r =>
            if e = 'e' ∨ e = 'E' then
              let (sgn, r2) := match r with
                | s :: r2 => if s = '+' ∨ s = '-' then ([s], r2) else ([], r)
                | [] => ([], r)
              match r2 with
              | d :: _ =>
                if d.isDigit then
                  (e :: (sgn ++ r2.takeWhile Char.isDigit), r2.dropWhile Char.isDigit)
                else ([], cs3)
              | [] => ([], cs3)
            else ([], cs3)
          | [] => ([], cs3)
        some (sign ++ intDigits ++ fracPart ++ expPart, cs4)
      else none
    | [] => none

mutual

/-- One JSON value at the head of the input (whitespace already skipped). -/
def parseJValue : Nat → List Char → Except String (Json × List Char)
  | 0, _ => Except.error "Expecting value"
  | fuel + 1, cs =>
    match cs with
    | [] => Except.error "Expecting value"
    | '"' :: rest =>
      match parseJStr rest with
      | Except.ok (s, r) => Except.ok (Json.str s, r)
      | Except.error m => Except.error m
    | '[' :: rest =>
      let rest2 := rest.dropWhile jWs
      match rest2 with
      | ']' :: r => Except.ok (Json.arr [], r)
      | _ =>
        match parseJElems fuel rest2 with
        | Except.ok (es, r) => Except.ok (Json.arr es, r)
        | Except.error m => Except.error m
    | c :: rest =>
      if c = lbraceChar then
        let rest2 := rest.dropWhile jWs
        match rest2 with
        | c2 :: r =>
          if c2 = rbraceChar then Except.ok (Json.obj [], r)
          else
            match parseJMembers fuel rest2 with
            | Except.ok (fs, r2) => Except.ok (Json.obj fs, r2)
            | Except.error m => Except.error m
        | [] => Except.error "Expecting property name enclosed in double quotes"
      else
        match exactPrefix ['n', 'u', 'l', 'l'] cs with
        | some r => Except.ok (Json.null, r)
        | none =>
        match exactPrefix ['t', 'r', 'u', 'e'] cs with
        | some r => Except.ok (Json.bool true, r)
        | none =>
        match exactPrefix ['f', 'a', 'l', 's', 'e'] cs with
        | some r => Except.ok (Json.bool false, r)
        | none =>
        match exactPrefix ['N', 'a', 'N'] cs with
        | some r => Except.ok (Json.num "NaN", r)
        | none =>
        match exactPrefix ['I', 'n', 'f', 'i', 'n', 'i', 't', 'y'] cs with
        | some r => Except.ok (Json.num "Infinity", r)
        | none =>
        match exactPrefix ['-', 'I', 'n', 'f', 'i', 'n', 'i', 't', 'y'] cs with
        | some r => Except.ok (Json.num "-Infinity", r)
        | none =>
        match parseJNum cs with
        | some (lit, r) => Except.ok (Json.num (String.mk lit), r)
        | none => Except.error "Expecting value"

/-- Comma-separated array elements, first element at the head. -/
def parseJElems : Nat → List Char → Except String (List Json × List Char)
  | 0, _ => Except.error "Expecting value"
  | fuel + 1, cs =>
    match parseJValue fuel cs with
    | Except.error m => Except.error m
    | Except.ok (v, r) =>
      let r2 := r.dropWhile jWs
      match r2 with
      | ']' :: r3 => Except.ok ([v], r3)
      | ',' :: r3 =>
        match parseJElems fuel (r3.dropWhile jWs) with
        | Except.ok (vs, r4) => Except.ok (v :: vs, r4)
        | Except.error m => Except.error m
      | _ => Except.error "Expecting comma delimiter"

/-- Comma-separated object members, first key at the head. -/
def parseJMembers : Nat → List Char → Except String (List (String × Json) × List Char)
  | 0, _ => Except.error "Expecting value"
  | fuel + 1, cs =>
    match cs with
    | '"' :: rest =>
      match parseJStr rest with
      | Except.error m => Except.error m
      | Except.ok (k, r) =>
        match r.dropWhile jWs with
        | ':' :: r2 =>
          match parseJValue fuel (r2.dropWhile jWs) with
          | Except.error m => Except.error m
          | Except.ok (v, r3) =>
            match r3.dropWhile jWs with
            | c :: r4 =>
              if c = rbraceChar then Except.ok ([(k, v)], r4)
              else if c = ',' then
                match (r4.dropWhile jWs) with
                | rest2 =>
                  match parseJMembers fuel rest2 with
                  | Except.ok (fs, r5) => Except.ok ((k, v) :: fs, r5)
                  | Except.error m => Except.error m
              else Except.error "Expecting comma delimiter"
            | [] => Except.error "Expecting comma delimiter"
        | _ => Except.error "Expecting colon delimiter"
    | _ => Except.error "Expecting property name enclosed in double quotes"

end

/-- `json.loads` on a string: skip surrounding whitespace, decode one value,
reject trailing data. -/
def jsonLoads (s : String) : Except String Json :=
  let cs := s.data.dropWhile jWs
  match parseJValue (2 * cs.length + 2) cs with
  | Except.error m => Except.error m
  | Except.ok (v, r) =>
    if r.dropWhile jWs = [] then Except.ok v else Except.error "Extra data"

/-! ## Response cleaning and tier-2 JSON repair
(training_service.py lines 377–442) -/

/-- `str.replace(pat, repl)`: replace every non-overlapping occurrence, left
to right (the fuel, at least the input length, is never exhausted because
each step consumes at least one character of a nonempty pattern). -/
def replaceAllGo (pat repl : List Char) : Nat → List Char → List Char
  | 0, cs => cs
  | _ + 1, [] => []
  | fuel + 1, c :: cs =>
    match exactPrefix pat (c :: cs) with
    | some rest => repl ++ replaceAllGo pat repl fuel rest
    | none => c :: replaceAllGo pat repl fuel cs

/-- `s.replace(pat, repl)` for a nonempty pattern. -/
def replaceAll (cs pat repl : List Char) : List Char :=
  replaceAllGo pat repl cs.length cs

/-- `response_text.replace('```json', '').replace('```', '').strip()`
(training_service.py line 380). -/
def cleanedResponse (raw : List Char) : List Char :=
  pyStrip (replaceAll (replaceAll raw "```json".data []) "```".data [])

/-- `re.search(r'\[[\s\S]*\]', text)`: the span from the first `[` that has
some `]` after it through the last `]` of the text, if any. -/
def extractJsonSpan? (cs : List Char) : Option (List Char) :=
  if cs.reverse.dropWhile (fun c => c ≠ ']') = [] then none
  else
    match (cs.reverse.dropWhile (fun c => c ≠ ']')).reverse.dropWhile
        (fun c => c ≠ '[') with
    | [] => none
    | fromOpen => some fromOpen

/-- `clean_json_text` (training_service.py lines 383–387): the bracketed
span when present, otherwise the whole cleaned text, stripped. -/
def cleanJsonText (cleaned : List Char) : List Char :=
  match extractJsonSpan? cleaned with
  | some sp => pyStrip sp
  | none => pyStrip cleaned

/-- Fix 1 (training_service.py line 411),
`re.sub(r'"\s*\n\s*"', '",\n"', s)`: a comma is inserted between two quote
characters separated by whitespace containing a newline. -/
def fix1Go : Nat → List Char → List Char
  | 0, cs => cs
  | _ + 1, [] => []
  | fuel + 1, c :: cs =>
    if c = '"' then
      let run := cs.takeWhile pyWs
      if run.contains '\n' then
        match cs.dropWhile pyWs with
        | '"' :: rest => '"' :: ',' :: '\n' :: '"' :: fix1Go fuel rest
        | _ => '"' :: fix1Go fuel cs
      else '"' :: fix1Go fuel cs
    else c :: fix1Go fuel cs

/-- Fix 1 at adequate fuel. -/
def fix1 (cs : List Char) : List Char := fix1Go cs.length cs

/-- Fix 2 (training_service.py line 415),
`re.sub(r'(\]|\})\s*\n\s*"', r'\1,\n"', s)`: a comma is inserted between a
closing bracket/brace and a following quote separated by whitespace
containing a newline. -/
def fix2Go : Nat → List Char → List Char
  | 0, cs => cs
  | _ + 1, [] => []
  | fuel + 1, c :: cs =>
    if c = ']' ∨ c = rbraceChar then
      let run := cs.takeWhile pyWs
      if run.contains '\n' then
        match cs.dropWhile pyWs with
        | '"' :: rest => c :: ',' :: '\n' :: '"' :: fix2Go fuel rest
        | _ => c :: fix2Go fuel cs
      else c :: fix2Go fuel cs
    else c :: fix2Go fuel cs

/-- Fix 2 at adequate fuel. -/
def fix2 (cs : List Char) : List Char := fix2Go cs.length cs

/-- Fix 3 (training_service.py lines 418–420): append one closing quote when
the total quote count is odd. -/
def fix3 (cs : List Char) : List Char :=
  if cs.count '"' % 2 ≠ 0 then cs ++ ['"'] else cs

/-- Fix 4 (training_service.py lines 423–438): count all four bracket
characters, then append the deficit of `}` and after it the deficit of `]`.
-/
def fix4 (cs : List Char) : List Char :=
  let openBraces := cs.count lbraceChar
  let closeBraces := cs.count rbraceChar
  let openBrackets := cs.count '['
  let closeBrackets := cs.count ']'
  let cs2 :=
    if openBraces > closeBraces then
      cs ++ List.replicate (openBraces - closeBraces) rbraceChar
    else cs
  if openBrackets > closeBrackets then
    cs2 ++ List.replicate (openBrackets - closeBrackets) ']'
  else cs2

/-- The complete tier-2 repair (training_service.py lines 405–440): the four
fixes in source order. -/
def fixJson (cs : List Char) : List Char :=
  fix4 (fix3 (fix2 (fix1 cs)))

/-! ## The markdown fallback parser
(`parse_markdown_exercises`, training_service.py lines 124–197) -/

/-- One exercise record produced by `parse_markdown_exercises`; `none` in an
optional field means the key is absent from the Python dict (the extracted
text was empty or unmatched). -/
structure MdExercise where
  question : String
  options : List String
  correct : Nat
  explanation : String
  classicText : Option String
  modernText : Option String
  comicReference : Option String
  grammarRule : Option String
deriving DecidableEq

/-- Match the block-splitting header `###\s*\*\*Question\s+\d+:`
(training_service.py line 129) at the head of the input, returning the
remainder. -/
def mdHeader? (cs : List Char) : Option (List Char) :=
  match exactPrefix "###".data cs with
  | none => none
  | some r1 =>
    match exactPrefix "**Question".data (r1.dropWhile pyWs) with
    | none => none
    | some r3 =>
      if r3.takeWhile pyWs = [] then none
      else
        let r4 := r3.dropWhile pyWs
        if r4.takeWhile Char.isDigit = [] then none
        else
          match r4.dropWhile Char.isDigit with
          | ':' :: r5 => some r5
          | _ => none

/-- Scan for the first header occurrence, returning the text before and
after it. -/
def findMdHeader : List Char → Option (List Char × List Char)
  | [] => none
  | c :: cs =>
    match mdHeader? (c :: cs) with
    | some rest => some ([], rest)
    | none =>
      match findMdHeader cs with
      | some (pre, rest) => some (c :: pre, rest)
      | none => none

/-- `re.split` on the header pattern: the segments around each match. -/
def mdSegmentsGo : Nat → List Char → List (List Char)
  | 0, cs => [cs]
  | fuel + 1, cs =>
    match findMdHeader cs with
    | none => [cs]
    | some (pre, rest) => pre :: mdSegmentsGo fuel rest

/-- `question_blocks[1:]` (training_service.py lines 129–131): everything
after each header match. -/
def mdBlocks (cs : List Char) : List (List Char) :=
  (mdSegmentsGo cs.length cs).drop 1

/-- Generic regex-style search: try a match attempt at every position, left
to right, end position included. -/
def scanMatch (attempt : List Char → Option α) : List Char → Option α
  | [] => attempt []
  | c :: cs =>
    match attempt (c :: cs) with
    | some v => some v
    | none => scanMatch attempt cs

/-- The tail of a whitespace run after its last newline, or `none` when it
has no newline — the semantics of a greedy `\s*\n` prefix. -/
def afterLastNewline (run : List Char) : Option (List Char) :=
  if run.contains '\n' then some ((run.reverse.takeWhile (fun c => c ≠ '\n')).reverse)
  else none

/-- Non-greedy `(.+?)(?=look)` with `re.DOTALL`: the shortest nonempty
prefix whose end position satisfies the lookahead; `none` when no position
does. -/
def takeUntilLook (look : List Char → Bool) : Nat → List Char → Option (List Char)
  | 0, _ => none
  | _ + 1, [] => none
  | fuel + 1, c :: cs =>
    if look cs then some [c]
    else
      match takeUntilLook look fuel cs with
      | some t => some (c :: t)
      | none => none

/-- Non-greedy `(.+?)"?(?=look)`: as `takeUntilLook` but an optional quote
may sit between the capture and the lookahead position. -/
def takeUntilQuoteLook (look : List Char → Bool) : Nat → List Char → Option (List Char)
  | 0, _ => none
  | _ + 1, [] => none
  | fuel + 1, c :: cs =>
    if (match cs with
        | '"' :: cs2 => look cs2
        | _ => false) then some [c]
    else if look cs then some [c]
    else
      match takeUntilQuoteLook look fuel cs with
      | some t => some (c :: t)
      | none => none

/-- Lookahead `(?=\n\*\*|\n[A-D]\.)` of the question pattern
(training_service.py line 137). -/
def lookQuestionEnd (cs : List Char) : Bool :=
  match cs with
  | '\n' :: '*' :: '*' :: _ => true
  | '\n' :: c :: '.' :: _ => 'A' ≤ c ∧ c ≤ 'D'
  | _ => false

/-- Lookahead `(?=\n\*\*)` of the classic/modern/comic patterns. -/
def lookNextLabel (cs : List Char) : Bool :=
  match cs with
  | '\n' :: '*' :: '*' :: _ => true
  | _ => false

/-- Lookahead `(?=\n---|\n###|$)` of the explanation pattern
(training_service.py line 165); `$` without `re.MULTILINE` matches at the
end of the text or before a final newline. -/
def lookExplanationEnd (cs : List Char) : Bool :=
  match cs with
  | [] => true
  | ['\n'] => true
  | '\n' :: '-' :: '-' :: '-' :: _ => true
  | '\n' :: '#' :: '#' :: '#' :: _ => true
  | _ => false

/-- Attempt `LABEL\s*\n(.+?)(?=look)` at the head of the input. -/
def labelCaptureAttempt (label : List Char) (look : List Char → Bool)
    (cs : List Char) : Option (List Char) :=
  match exactPrefix label cs with
  | none => none
  | some rest =>
    match afterLastNewline (rest.takeWhile pyWs) with
    | none => none
    | some wsTail =>
      let cs0 := wsTail ++ rest.dropWhile pyWs
      takeUntilLook look cs0.length cs0

/-- Attempt `LABEL\s*\n"?(.+?)"?(?=\n\*\*)` at the head of the input. -/
def labelQuoteCaptureAttempt (label : List Char) (cs : List Char) :
    Option (List Char) :=
  match exactPrefix label cs with
  | none => none
  | some rest =>
    match afterLastNewline (rest.takeWhile pyWs) with
    | none => none
    | some wsTail =>
      let cs0 := wsTail ++ rest.dropWhile pyWs
      let cs1 := match cs0 with
        | '"' :: t => t
        | _ => cs0
      takeUntilQuoteLook lookNextLabel cs1.length cs1

/-- The tail of `^([A-D])\.\s+(.+?)$` after the letter and dot: the greedy
whitespace run (which may cross newlines) followed by the rest of the line
it lands in; when the text ends inside the run, the pattern backtracks to
capture the run's trailing newline-free whitespace (one character at
least). Returns the capture and the remainder after the match. -/
def optMatchTail (rest2 : List Char) : Option (List Char × List Char) :=
  let run := rest2.takeWhile pyWs
  let after := rest2.dropWhile pyWs
  if run = [] then none
  else if after ≠ [] then
    some (after.takeWhile (fun c => c ≠ '\n'), after.dropWhile (fun c => c ≠ '\n'))
  else
    let suffix := (run.reverse.takeWhile (fun c => c ≠ '\n')).reverse
    if suffix.length = run.length then
      match run.reverse with
      | l :: _ :: _ => some ([l], [])
      | _ => none
    else if suffix ≠ [] then some (suffix, [])
    else none

/-- `re.findall(r'^([A-D])\.\s+(.+?)$', block, re.MULTILINE)`
(training_service.py line 153): scan the whole block for line-start option
letters; each match may consume across newlines through its capture's line,
and scanning resumes after the match. -/
def optionsScan : Nat → Bool → List Char → List (List Char)
  | 0, _, _ => []
  | _ + 1, _, [] => []
  | fuel + 1, atStart, c :: rest =>
    if atStart ∧ 'A' ≤ c ∧ c ≤ 'D' then
      match rest with
      | '.' :: rest2 =>
        match optMatchTail rest2 with
        | some (cap, rem) => cap :: optionsScan fuel false rem
        | none => optionsScan fuel (c = '\n') rest
      | _ => optionsScan fuel (c = '\n') rest
    else optionsScan fuel (c = '\n') rest

/-- Attempt `\*\*Correct Answer:\*\*\s*\n([A-D])\.` at the head of the
input: the whitespace run after the label must end with a newline followed
directly by the letter and a dot. -/
def correctAttempt (cs : List Char) : Option Char :=
  match exactPrefix "**Correct Answer:**".data cs with
  | none => none
  | some rest =>
    let run := rest.takeWhile pyWs
    match run.reverse with
    | '\n' :: _ =>
      match rest.dropWhile pyWs with
      | c :: '.' :: _ => if 'A' ≤ c ∧ c ≤ 'D' then some c else none
      | _ => none
    | _ => none

/-- The grammar-rule alternation of training_service.py line 169, in source
order. -/
def grammarRulePatterns : List String :=
  ["Present Perfect", "Past Simple", "Future Simple", "Modal Verb",
    "Article", "Pronoun", "Passive Voice", "Conditional"]

/-- Attempt the grammar-rule alternation at the head of the input. -/
def grammarAttempt (cs : List Char) : Option String :=
  grammarRulePatterns.findSome? (fun p =>
    match exactPrefix p.data cs with
    | some _ => some p
    | none => none)

/-- `s if s else None` for the optional record keys (training_service.py
lines 181–188): only a nonempty extracted text is stored. -/
def optKey (s : Option (List Char)) : Option String :=
  match s with
  | none => none
  | some t =>
    let v := pyStrip t
    if v = [] then none else some (String.mk v)

/-- Parse one question block (training_service.py lines 135–190). Every
extraction is guarded in the source, so no block is ever skipped. -/
def parseMdBlock (block : List Char) : MdExercise :=
  let question := match scanMatch
      (labelCaptureAttempt "**Question:**".data lookQuestionEnd) block with
    | some t => pyStripStr t
    | none => ""
  let classic := optKey (scanMatch
    (labelQuoteCaptureAttempt "**ClassicText:**".data) block)
  let modern := optKey (scanMatch
    (labelQuoteCaptureAttempt "**ModernText:**".data) block)
  let comic := optKey (scanMatch
    (labelCaptureAttempt "**Comic Context:**".data lookNextLabel) block)
  let options := (optionsScan block.length true block).map pyStripStr
  let correct := match scanMatch correctAttempt block with
    | some c => c.toNat - 'A'.toNat
    | none => 0
  let explanation := match scanMatch
      (labelCaptureAttempt "**Explanation:**".data lookExplanationEnd) block with
    | some t => pyStripStr t
    | none => ""
  let grammar := match scanMatch grammarAttempt explanation.data with
    | some p => some p
    | none => none
  { question := question, options := options, correct := correct
    explanation := explanation, classicText := classic, modernText := modern
    comicReference := comic, grammarRule := grammar }

/-- `parse_markdown_exercises` (training_service.py lines 124–197): one
record per header block, capped at `num_questions`. -/
def parse_markdown_exercises (cs : List Char) (num_questions : Nat) :
    List MdExercise :=
  ((mdBlocks cs).take num_questions).map parseMdBlock

/-- The Python dict of one markdown-parsed exercise, in insertion order
(training_service.py lines 173–188). -/
def mdExerciseToJson (e : MdExercise) : Json :=
  Json.obj
    ([("type", Json.str "grammar"),
      ("question", Json.str e.question),
      ("options", Json.arr (e.options.map Json.str)),
      ("correct", Json.num (toString e.correct)),
      ("explanation", Json.str e.explanation)]
    ++ (match e.classicText with
        | some s => [("classicText", Json.str s)]
        | none => [])
    ++ (match e.modernText with
        | some s => [("modernText", Json.str s)]
        | none => [])
    ++ (match e.comicReference with
        | some s => [("comicReference", Json.str s)]
        | none => [])
    ++ (match e.grammarRule with
        | some s => [("grammarRule", Json.str s)]
        | none => []))

/-! ## The three-tier recovery chain
(`generate_training_exercises`, training_service.py lines 377–463) -/

/-- The empty-response error (training_service.py line 390). -/
def emptyRespError : String := "OpenRouter API mengembalikan respons kosong"

/-- The tier-3 zero-record error (training_service.py line 452). -/
def mdEmptyError : String := "Markdown parser returned no exercises"

/-- The final failure message (training_service.py lines 458–463),
concatenating the error of each attempted tier. -/
def parseFailMsg (e1 e2 e3 : String) : String :=
  "Model mengembalikan data yang tidak bisa di-parse.\nOriginal JSON error: "
    ++ e1 ++ "\nFix attempt: " ++ e2 ++ "\nMarkdown parser: " ++ e3

/-- The parsing phase of `generate_training_exercises`
(training_service.py lines 377–463): clean the model output, then attempt in
order (1) a direct `json.loads`, (2) the four repairs followed by
`json.loads`, (3) the markdown parser; the first success wins, and when all
fail the raised message carries each tier's error. Note that tier 3 runs on
the fence-stripped `response_text` of line 380, not on `clean_json_text`. -/
def recover_exercises (responseText : String) (numQuestions : Nat) :
    Except String Json :=
  let rt := cleanedResponse responseText.data
  let cleanText := cleanJsonText rt
  if cleanText = [] then Except.error emptyRespError
  else
    match jsonLoads (String.mk cleanText) with
    | Except.ok v => Except.ok v
    | Except.error e1 =>
      match jsonLoads (String.mk (fixJson cleanText)) with
      | Except.ok v => Except.ok v
      | Except.error e2 =>
        let md := parse_markdown_exercises rt numQuestions
        if md.isEmpty then Except.error (parseFailMsg e1 e2 mdEmptyError)
        else Except.ok (Json.arr (md.map mdExerciseToJson))

/-! ## Concrete stores and inputs used to instantiate the theorems -/

/-- A progress row carrying only aggregate counters (the aggregation folds
read nothing else). -/
def mkStatRow (c q : Nat) (comp : Bool) : ProgressRow :=
  { id := 0, moduleId := "m", userId := 0, total_score := 0
    correct_answers := c, total_questions := q, completed := comp
    started_at := 0, completed_at := none }

/-- A store with one module `m1` owning exercise `e1` (correct answer 2 of
4 options) and one student. -/
def exSt1 : DBState :=
  { modules := [{ id := "m1" }]
    panels := []
    exercises := [{ id := "e1", moduleId := "m1"
                    options := ["a", "b", "c", "d"], correct_answer := 2 }]
    users := [{ id := 1, role := "student" }]
    progresses := []
    answers := []
    nextProgressId := 10
    nextAnswerId := 20 }

/-- A submission to `m1` whose only answer picks index 7 (outside the four
options) while asserting `is_correct = true`. -/
def exReq1 : SaveAnswersRequest :=
  { module_id := "m1"
    user_answers := [{ exercise_id := "e1", selected_answer := 7, is_correct := true }]
    score := 70 }

/-- A store with two modules: `m1` owns exercise `e1` and one panel; `m2`
owns nothing; one student. -/
def exSt2 : DBState :=
  { modules := [{ id := "m1" }, { id := "m2" }]
    panels := [{ id := 1, moduleId := "m1" }]
    exercises := [{ id := "e1", moduleId := "m1"
                    options := ["a", "b", "c", "d"], correct_answer := 0 }]
    users := [{ id := 1, role := "student" }]
    progresses := []
    answers := []
    nextProgressId := 10
    nextAnswerId := 20 }

/-- A submission to module `m2` that answers `m1`'s exercise `e1` — the
handler looks exercises up globally, so this crosses modules. -/
def exReq2 : SaveAnswersRequest :=
  { module_id := "m2"
    user_answers := [{ exercise_id := "e1", selected_answer := 0, is_correct := true }]
    score := 10 }

/-- A candidate exercise whose correct index is `-1` with four options. -/
def exCand3 : ExCandidate :=
  { question := "q", options := some ["a", "b", "c", "d"]
    correct := CVal.int (-1), correctAnswer := none
    explanation := "e", difficulty := none }

/-- The spec's numbering-gap example: panel 2 directly followed by panel 5,
the first with no fields at all, the second with a dialogue. -/
def exScript6 : String :=
  "**Panel 2:**\njust prose\n**Panel 5:**\n**DIALOGUE:** Hi\n"

/-! # Theorems -/

/-- C7: applying one scored answer to a `UserProgress` record
(`DatabaseService.save_user_answer`) increments `total_questions` by exactly
1 unconditionally; and exactly when the answer is scored correct it
increments `correct_answers` by 1 and adds the fixed 10 points to
`total_score`, both left unchanged otherwise. -/
theorem c7_scoring_transition (p : ProgressRow) (is_correct : Bool) :
    (save_user_answer_step p is_correct).total_questions = p.total_questions + 1 ∧
    (is_correct = true →
      (save_user_answer_step p is_correct).correct_answers = p.correct_answers + 1 ∧
      (save_user_answer_step p is_correct).total_score = p.total_score + 10) ∧
    (is_correct = false →
      (save_user_answer_step p is_correct).correct_answers = p.correct_answers ∧
      (save_user_answer_step p is_correct).total_score = p.total_score) := by
  cases is_correct <;> simp [save_user_answer_step]

/-- Witness for C7 at a concrete progress row and both flag values. -/
theorem c7_scoring_transition_witness :
    ((save_user_answer_step (mkStatRow 3 5 false) true).correct_answers = 4 ∧
      (save_user_answer_step (mkStatRow 3 5 false) true).total_score = 10) ∧
    ((save_user_answer_step (mkStatRow 3 5 false) false).correct_answers = 3 ∧
      (save_user_answer_step (mkStatRow 3 5 false) false).total_score = 0) := by
  constructor
  · have h := (c7_scoring_transition (mkStatRow 3 5 false) true).2.1 rfl
    simpa [mkStatRow] using h
  · have h := (c7_scoring_transition (mkStatRow 3 5 false) false).2.2 rfl
    simpa [mkStatRow] using h

/-- C3 counterexample: a candidate with four options and correct index `-1`
is accepted by the validator (stored with `correct = -1`), though the claim
requires `-1` to be rejected. -/
theorem c3_counterexample :
    validate_exercise exCand3 =
      Except.ok { question := "q", options := ["a", "b", "c", "d"], correct := -1
                  explanation := "e", difficulty := "medium" } ∧
    ¬ (0 ≤ (-1 : Int)) := by
  exact ⟨rfl, by decide⟩

/-- C3 as amended: on a candidate with non-empty question and explanation
and exactly four options, the validator rejects an unresolvable correct
index, rejects a resolved index `≥ 4` (so `correct = N = 4` is rejected),
and accepts any resolved index `< 4` — negative indices included, since no
lower bound is checked. -/
theorem c3_validator_range (ex : ExCandidate) (opts : List String)
    (hq : ex.question ≠ "") (ho : ex.options = some opts) (hlen : opts.length = 4)
    (he : ex.explanation ≠ "") :
    (pydInt (resolvedCorrect ex) = none →
      validate_exercise ex = Except.error RejectReason.pydanticError) ∧
    (∀ v : Int, pydInt (resolvedCorrect ex) = some v →
      (4 ≤ v → validate_exercise ex = Except.error RejectReason.pydanticError) ∧
      (v < 4 → validate_exercise ex =
        Except.ok { question := ex.question, options := opts, correct := v
                    explanation := ex.explanation
                    difficulty := normDifficulty ex.difficulty })) := by
  have hop : ¬ (opts = [] ∨ opts.length ≠ 4) := by
    rw [hlen]
    rintro (h | h)
    · rw [h] at hlen; exact absurd hlen (by decide)
    · exact h rfl
  refine ⟨?_, ?_⟩
  · intro hnone
    simp only [validate_exercise, ho, if_neg hq, if_neg hop, if_neg he, hnone]
  · intro v hv
    refine ⟨?_, ?_⟩
    · intro hge
      simp only [validate_exercise, ho, if_neg hq, if_neg hop, if_neg he, hv]
      rw [if_pos]
      rw [hlen]
      exact_mod_cast hge
    · intro hlt
      simp only [validate_exercise, ho, if_neg hq, if_neg hop, if_neg he, hv]
      rw [if_neg]
      rw [hlen]
      push_cast
      omega

/-- Witness for C3 at the `-1` candidate: the index resolves to `-1 < 4`
and the validator accepts. -/
theorem c3_validator_range_witness :
    validate_exercise exCand3 =
      Except.ok { question := "q", options := ["a", "b", "c", "d"], correct := -1
                  explanation := "e", difficulty := normDifficulty none } := by
  have h := (c3_validator_range exCand3 ["a", "b", "c", "d"]
    (by decide) rfl rfl (by decide)).2 (-1) (by decide)
  exact h.2 (by decide)

/-- Two-decimal rounding moves a value by at most half of the last digit. -/
theorem round2_close (x : ℚ) : |round2 x - x| ≤ 1 / 200 := by
  have h : |x * 100 - (round (x * 100) : ℚ)| ≤ 1 / 2 := abs_sub_round (x * 100)
  have h2 : |(round (x * 100) : ℚ) - x * 100| ≤ 1 / 2 := by
    rwa [abs_sub_comm] at h
  have heq : round2 x - x = ((round (x * 100) : ℚ) - x * 100) / 100 := by
    unfold round2; ring
  rw [heq, abs_div, abs_of_pos (by norm_num : (0 : ℚ) < 100)]
  calc |(round (x * 100) : ℚ) - x * 100| / 100 ≤ (1 / 2) / 100 := by
        exact div_le_div_of_nonneg_right h2 (by norm_num) |>.trans_eq rfl
    _ = 1 / 200 := by norm_num

/-- One-decimal rounding moves a value by at most half of the last digit. -/
theorem round1_close (x : ℚ) : |round1 x - x| ≤ 1 / 20 := by
  have h : |x * 10 - (round (x * 10) : ℚ)| ≤ 1 / 2 := abs_sub_round (x * 10)
  have h2 : |(round (x * 10) : ℚ) - x * 10| ≤ 1 / 2 := by
    rwa [abs_sub_comm] at h
  have heq : round1 x - x = ((round (x * 10) : ℚ) - x * 10) / 10 := by
    unfold round1; ring
  rw [heq, abs_div, abs_of_pos (by norm_num : (0 : ℚ) < 10)]
  calc |(round (x * 10) : ℚ) - x * 10| / 10 ≤ (1 / 2) / 10 := by
        exact div_le_div_of_nonneg_right h2 (by norm_num) |>.trans_eq rfl
    _ = 1 / 20 := by norm_num

/-- C8 counterexample: for a single progress record with 1 correct answer
out of 3 questions, the leaderboard accuracy is the rounded `33.33`, not the
exact `100·1/3` the claim states. -/
theorem c8_counterexample :
    leaderboard_accuracy [mkStatRow 1 3 false] = 3333 / 100 ∧
    (3333 / 100 : ℚ) ≠ 100 * ((sumCorrect [mkStatRow 1 3 false] : ℚ) /
      (sumQuestions [mkStatRow 1 3 false] : ℚ)) := by
  have hq : sumQuestions [mkStatRow 1 3 false] = 3 := rfl
  have hc : sumCorrect [mkStatRow 1 3 false] = 1 := rfl
  have hr : round ((10000 : ℚ) / 3) = 3333 := by
    rw [round_eq, Int.floor_eq_iff]
    norm_num
  constructor
  · have harg : ((sumCorrect [mkStatRow 1 3 false] : ℚ) /
        (sumQuestions [mkStatRow 1 3 false] : ℚ) * 100) * 100 = 10000 / 3 := by
      rw [hq, hc]
      push_cast
      ring
    rw [leaderboard_accuracy, if_pos (by rw [hq]; norm_num), round2, harg, hr]
    norm_num
  · rw [hq, hc]
    norm_num

/-- C8 as amended: for every collection of progress records, both
leaderboard folds never divide by zero — accuracy is `0` when
`sum(total_questions) = 0` (the empty collection included) and otherwise
equals `100·Σcorrect/Σquestions` rounded to two decimals
(`GET /api/leaderboard/`) or one decimal (`GET /progress/leaderboard`), so
it sits within `1/200` (resp. `1/20`) of the exact ratio — and re-folding
the same records yields the same value. -/
theorem c8_accuracy_fold (ps : List ProgressRow) :
    (sumQuestions ps = 0 → leaderboard_accuracy ps = 0 ∧ progress_accuracy ps = 0) ∧
    (leaderboard_accuracy [] = 0 ∧ progress_accuracy [] = 0) ∧
    (0 < sumQuestions ps →
      |leaderboard_accuracy ps -
        (sumCorrect ps : ℚ) / (sumQuestions ps : ℚ) * 100| ≤ 1 / 200 ∧
      |progress_accuracy ps -
        (sumCorrect ps : ℚ) / (sumQuestions ps : ℚ) * 100| ≤ 1 / 20) ∧
    leaderboard_accuracy ps = leaderboard_accuracy ps ∧
    progress_accuracy ps = progress_accuracy ps := by
  have hzero : ∀ qs : List ProgressRow, sumQuestions qs = 0 →
      leaderboard_accuracy qs = 0 ∧ progress_accuracy qs = 0 := by
    intro qs h
    constructor
    · rw [leaderboard_accuracy, if_neg (by rw [h]; exact lt_irrefl 0)]
    · rw [progress_accuracy, if_neg (by rw [h]; exact lt_irrefl 0), round1]
      norm_num
  refine ⟨hzero ps, hzero [] rfl, ?_, rfl, rfl⟩
  intro hpos
  constructor
  · rw [leaderboard_accuracy, if_pos hpos]
    exact round2_close _
  · rw [progress_accuracy, if_pos hpos]
    exact round1_close _

/-- Witness for C8 at one record with 1 of 3 correct: the denominator is
positive and both accuracies are within half a last digit of `100/3`. -/
theorem c8_accuracy_fold_witness :
    0 < sumQuestions [mkStatRow 1 3 false] ∧
    |leaderboard_accuracy [mkStatRow 1 3 false] -
      (sumCorrect [mkStatRow 1 3 false] : ℚ) /
        (sumQuestions [mkStatRow 1 3 false] : ℚ) * 100| ≤ 1 / 200 := by
  have h := (c8_accuracy_fold [mkStatRow 1 3 false]).2.2.1 (by decide)
  exact ⟨by decide, h.1⟩

/-- `accuracy_sum` is the sum of per-attempt accuracies over the attempts
that have questions. -/
theorem accuracy_sum_eq_filter (ps : List ProgressRow) :
    accuracy_sum ps = ((ps.filter (fun p => p.total_questions > 0)).map
      (fun p => (p.correct_answers : ℚ) / (p.total_questions : ℚ) * 100)).sum := by
  induction ps with
  | nil => rfl
  | cons p t ih =>
    by_cases h : p.total_questions > 0 <;>
      simp [accuracy_sum, List.filter_cons, h, ih] <;>
      simp [accuracy_sum] at ih <;> rw [ih]

/-- C9 counterexample: for a group of two attempts — 1/1 and 0/3 — the
report's `avg_accuracy` is the mean of per-attempt accuracies, `50`, while
the claim's pooled formula `100·Σcorrect/Σquestions` gives `25`. -/
theorem c9_counterexample :
    avg_accuracy [mkStatRow 1 1 true, mkStatRow 0 3 false] = 50 ∧
    100 * ((sumCorrect [mkStatRow 1 1 true, mkStatRow 0 3 false] : ℚ) /
      (sumQuestions [mkStatRow 1 1 true, mkStatRow 0 3 false] : ℚ)) = 25 ∧
    (50 : ℚ) ≠ 25 := by
  refine ⟨?_, ?_, by norm_num⟩
  · rw [avg_accuracy, if_pos (by norm_num)]
    norm_num [accuracy_sum, mkStatRow]
  · rw [show sumCorrect [mkStatRow 1 1 true, mkStatRow 0 3 false] = 1 from rfl,
      show sumQuestions [mkStatRow 1 1 true, mkStatRow 0 3 false] = 4 from rfl]
    norm_num

/-- C9 as amended: per group of the module-performance report,
`completion_rate` is `100·completed/attempts` (`0` for no attempts) as the
claim states, while `avg_accuracy` is the arithmetic mean over all of the
group's attempts of each attempt's own accuracy percentage (attempts
without questions contributing `0`), not the pooled
`100·Σcorrect/Σquestions`; it is `0` for no attempts. -/
theorem c9_module_report (ps : List ProgressRow) :
    (ps = [] → completion_rate ps = 0 ∧ avg_accuracy ps = 0) ∧
    (ps ≠ [] →
      completion_rate ps * (ps.length : ℚ) = 100 * (countCompleted ps : ℚ) ∧
      avg_accuracy ps * (ps.length : ℚ) =
        ((ps.filter (fun p => p.total_questions > 0)).map
          (fun p => (p.correct_answers : ℚ) / (p.total_questions : ℚ) * 100)).sum) := by
  constructor
  · rintro rfl
    exact ⟨rfl, rfl⟩
  · intro hne
    have hlen : 0 < ps.length := List.length_pos.mpr hne
    have hq : ((ps.length : ℚ)) ≠ 0 := by
      exact_mod_cast hlen.ne'
    constructor
    · rw [completion_rate, if_pos hlen]
      field_simp
      ring
    · rw [avg_accuracy, if_pos hlen, ← accuracy_sum_eq_filter]
      field_simp

/-- Witness for C9 at the 1/1, 0/3 group: two attempts, one completed. -/
theorem c9_module_report_witness :
    completion_rate [mkStatRow 1 1 true, mkStatRow 0 3 false] *
        ((2 : Nat) : ℚ) = 100 *
        ((countCompleted [mkStatRow 1 1 true, mkStatRow 0 3 false] : Nat) : ℚ) ∧
    [mkStatRow 1 1 true, mkStatRow 0 3 false] ≠ ([] : List ProgressRow) := by
  have h := (c9_module_report [mkStatRow 1 1 true, mkStatRow 0 3 false]).2
    (by simp)
  exact ⟨h.1, by simp⟩

/-- C5 counterexample: `["{"]` is a valid JSON array, its truncation before
the closing bracket is `["{"`, yet the tier-2 repair turns it into the
unparseable `["{"}]`, because the raw brace count inside the string value
triggers the brace balancing. -/
theorem c5_counterexample :
    jsonLoads "[\"\x7b\"]" = Except.ok (Json.arr [Json.str "\x7b"]) ∧
    fixJson "[\"\x7b\"".data = "[\"\x7b\"\x7d]".data ∧
    (jsonLoads (String.mk (fixJson "[\"\x7b\"".data))).isOk = false := by
  exact ⟨rfl, rfl, rfl⟩

/-- C5 as amended: tier 2 applies exactly the four repairs in order, and for
a JSON array truncated before its closing bracket the bracket balancing
alone fires and restores the exact original value — provided the truncated
text contains no comma-insertion match, an even number of quote characters
and no curly-brace deficit (all true when no string value contains stray
quotes/braces; otherwise the repair can corrupt the text, as the
counterexample shows). -/
theorem c5_truncated_repair (s : List Char) (v : Json)
    (h1 : fix1 s = s) (h2 : fix2 s = s)
    (h3 : s.count '"' % 2 = 0)
    (h4 : s.count lbraceChar ≤ s.count rbraceChar)
    (h5 : s.count '[' = s.count ']' + 1)
    (hp : jsonLoads (String.mk (s ++ [']'])) = Except.ok v) :
    fixJson s = s ++ [']'] ∧
    jsonLoads (String.mk (fixJson s)) = Except.ok v := by
  have hfix : fixJson s = s ++ [']'] := by
    unfold fixJson
    rw [h1, h2, fix3, if_neg (by rw [h3]; exact fun h => h rfl)]
    simp only [fix4]
    rw [if_pos (by omega : s.count '[' > s.count ']'),
      if_neg (by omega : ¬ s.count lbraceChar > s.count rbraceChar)]
    have hone : s.count '[' - s.count ']' = 1 := by omega
    rw [hone]
    rfl
  exact ⟨hfix, by rw [hfix]; exact hp⟩

/-- Witness for C5: the array `[{"q": "a"}]` truncated before its final
bracket satisfies all side conditions, and the repair restores the original
value. -/
theorem c5_truncated_repair_witness :
    fixJson "[\x7b\"q\": \"a\"\x7d".data = "[\x7b\"q\": \"a\"\x7d]".data ∧
    jsonLoads (String.mk (fixJson "[\x7b\"q\": \"a\"\x7d".data)) =
      Except.ok (Json.arr [Json.obj [("q", Json.str "a")]]) := by
  have h := c5_truncated_repair "[\x7b\"q\": \"a\"\x7d".data
    (Json.arr [Json.obj [("q", Json.str "a")]]) rfl rfl rfl (by decide) rfl rfl
  exact ⟨by rw [h.1]; rfl, h.2⟩

/-- C6: the comic script parser yields exactly one panel per
`**Panel N:**` marker with the numbers taken verbatim from the text (gaps
preserved, nothing synthesized), returns the empty list when no marker
matches, and fills absent fields with their defaults: `"None"` for
dialogue, `""` for narration/visual/setting/mood, `"medium shot"` for
composition. -/
theorem c6_comic_script (s : String) :
    ((parse_comic_script s).map Panel.id = (panelSpans s.data).map Prod.fst) ∧
    (panelSpans s.data = [] → parse_comic_script s = []) ∧
    (∀ n c, findCI (fieldLabel "DIALOGUE") c = none →
      (buildPanel n c).dialogue = "None") ∧
    (∀ n c, findCI (fieldLabel "NARRATION") c = none →
      (buildPanel n c).narration = "") ∧
    (∀ n c, findCI (fieldLabel "VISUAL") c = none →
      (buildPanel n c).visual = "") ∧
    (∀ n c, findCI (fieldLabel "SETTING") c = none →
      (buildPanel n c).setting = "") ∧
    (∀ n c, findCI (fieldLabel "MOOD") c = none →
      (buildPanel n c).mood = "") ∧
    (∀ n c, findCI (fieldLabel "COMPOSITION") c = none →
      (buildPanel n c).composition = "medium shot") := by
  refine ⟨?_, ?_, ?_, ?_, ?_, ?_, ?_, ?_⟩
  · rw [parse_comic_script, List.map_map]
    rfl
  · intro h
    rw [parse_comic_script, h]
    rfl
  all_goals
    intro n c h
    simp [buildPanel, extract_field, h, orElseStr]

/-- Witness for C6 on the spec's gap example (panels 2 then 5, the first
with no labelled fields) and a marker-free text. -/
theorem c6_comic_script_witness :
    (parse_comic_script exScript6).map Panel.id = [2, 5] ∧
    parse_comic_script "no panel markers here" = [] ∧
    (parse_comic_script exScript6).map Panel.dialogue = ["None", "Hi"] ∧
    (parse_comic_script exScript6).map Panel.narration = ["", ""] ∧
    (parse_comic_script exScript6).map Panel.composition =
      ["medium shot", "medium shot"] := by
  refine ⟨?_, ?_, rfl, rfl, rfl⟩
  · rw [(c6_comic_script exScript6).1]
    rfl
  · exact (c6_comic_script "no panel markers here").2.1 rfl

/-- Every row created by the answer-insertion loop carries the
`selected_answer` and `is_correct` of some submitted answer datum,
verbatim. -/
theorem insertAnswers_mem (exs : List ExerciseRow) (pid now : Nat) :
    ∀ (l : List AnswerData) (nid : Nat) (a : AnswerRow),
      a ∈ (insertAnswers exs pid now l nid).1 →
      ∃ d ∈ l, d.exercise_id = a.exerciseId ∧
        a.selected_answer = d.selected_answer ∧ a.is_correct = d.is_correct
  | [], nid, a, h => by simp [insertAnswers] at h
  | d :: rest, nid, a, h => by
    rw [insertAnswers] at h
    cases hf : exs.find? (fun e => e.id = d.exercise_id) with
    | some e =>
      rw [hf] at h
      simp only [List.mem_cons] at h
      cases h with
      | inl he =>
        refine ⟨d, List.mem_cons_self d rest, ?_⟩
        rw [he]
        exact ⟨rfl, rfl, rfl⟩
      | inr hr =>
        obtain ⟨d2, hd2, hprops⟩ := insertAnswers_mem exs pid now rest (nid + 1) a hr
        exact ⟨d2, List.mem_cons_of_mem _ hd2, hprops⟩
    | none =>
      rw [hf] at h
      obtain ⟨d2, hd2, hprops⟩ := insertAnswers_mem exs pid now rest nid a h
      exact ⟨d2, List.mem_cons_of_mem _ hd2, hprops⟩

/-- C10: every successful student submission overwrites the `(module, user)`
progress record with the client-supplied score, the count of submitted
answers and the count of client-asserted correct flags, marks it completed
and stamps the completion time — independently of the stored exercises (no
recomputation). -/
theorem c10_submission_overwrites (st : DBState) (uid : Nat)
    (req : SaveAnswersRequest) (now : Nat) (s : Int) (c t n : Nat) (st2 : DBState)
    (h : save_student_answers st uid req now = (SaveOutcome.ok s c t n, st2)) :
    s = req.score ∧ c = countCorrect req.user_answers ∧
    t = req.user_answers.length ∧
    ∃ p ∈ st2.progresses, p.moduleId = req.module_id ∧ p.userId = uid ∧
      p.completed = true ∧ p.completed_at = some now ∧
      p.total_score = req.score ∧
      p.correct_answers = countCorrect req.user_answers ∧
      p.total_questions = req.user_answers.length := by
  rw [save_student_answers] at h
  split at h
  · simp at h
  split at h
  · simp at h
  split at h
  · simp at h
  split at h
  · simp at h
  split at h
  case _ p hpf =>
    have h1 := congrArg Prod.fst h
    have h2 := congrArg Prod.snd h
    simp only at h1 h2
    injection h1 with hs hc ht hn
    have hpred := List.find?_some hpf
    have hpmem := List.mem_of_find?_eq_some hpf
    have hpand := of_decide_eq_true hpred
    refine ⟨hs.symm, hc.symm, ht.symm, ?_⟩
    refine ⟨{ p with
      total_score := req.score,
      correct_answers := countCorrect req.user_answers,
      total_questions := req.user_answers.length,
      completed := true,
      completed_at := some now }, ?_, ?_⟩
    · rw [← h2]
      exact List.mem_map.mpr ⟨p, hpmem, by rw [if_pos rfl]⟩
    · exact ⟨hpand.1, hpand.2, rfl, rfl, rfl, rfl, rfl⟩
  case _ hpf =>
    have h1 := congrArg Prod.fst h
    have h2 := congrArg Prod.snd h
    simp only at h1 h2
    injection h1 with hs hc ht hn
    refine ⟨hs.symm, hc.symm, ht.symm, ?_⟩
    refine ⟨(⟨st.nextProgressId, req.module_id, uid, req.score,
        countCorrect req.user_answers, req.user_answers.length,
        true, now, some now⟩ : ProgressRow), ?_, ?_⟩
    · rw [← h2]
      exact List.mem_append.mpr (Or.inr (List.mem_singleton.mpr rfl))
    · exact ⟨rfl, rfl, rfl, rfl, rfl, rfl, rfl⟩

/-- Witness for C10: a concrete submission against `exSt1` with score 70
and one answer yields a completed progress row with exactly those values.
-/
theorem c10_submission_overwrites_witness :
    ∃ p ∈ (save_student_answers exSt1 1 exReq1 5).2.progresses,
      p.moduleId = "m1" ∧ p.userId = 1 ∧ p.completed = true ∧
      p.completed_at = some 5 ∧ p.total_score = 70 ∧
      p.correct_answers = 1 ∧ p.total_questions = 1 := by
  have h := c10_submission_overwrites exSt1 1 exReq1 5 70 1 1 1
    (save_student_answers exSt1 1 exReq1 5).2 rfl
  exact h.2.2.2

/-- C1 counterexample: submitting `selected_answer = 7` (outside the four
options of `e1`, whose correct index is 2) with a client-asserted
`is_correct = true` stores the row with `is_correct = true` and no error —
the flag is caller-controlled, not the claimed
`selected_answer == correct_answer` (which is false here). -/
theorem c1_counterexample :
    ((save_student_answers exSt1 1 exReq1 5).2.answers.map
      (fun a => (a.exerciseId, a.selected_answer, a.is_correct)))
        = [("e1", 7, true)] ∧
    (exSt1.exercises.map (fun e => (e.id, e.correct_answer, e.options.length)))
        = [("e1", 2, 4)] ∧
    ((7 : Int) = 2) = False ∧
    (save_student_answers exSt1 1 exReq1 5).1 = SaveOutcome.ok 70 1 1 1 := by
  refine ⟨rfl, rfl, by simp, rfl⟩

/-- C1 as amended: the answer-saving endpoint stores, for every newly
created `UserAnswer` row, exactly the client-supplied `selected_answer` and
`is_correct` of some submitted datum — it never computes the flag from
`exercise.correct_answer`, and out-of-range `selected_answer` values are
stored without error. -/
theorem c1_flag_caller_supplied (st : DBState) (uid : Nat)
    (req : SaveAnswersRequest) (now : Nat) (res : SaveOutcome × DBState)
    (h : save_student_answers st uid req now = res) (a : AnswerRow)
    (ha : a ∈ res.2.answers) (hnew : a ∉ st.answers) :
    ∃ d ∈ req.user_answers, d.exercise_id = a.exerciseId ∧
      a.selected_answer = d.selected_answer ∧ a.is_correct = d.is_correct := by
  rw [save_student_answers] at h
  split at h
  · rw [← h] at ha
    exact absurd ha hnew
  split at h
  · rw [← h] at ha
    exact absurd ha hnew
  split at h
  · rw [← h] at ha
    exact absurd ha hnew
  split at h
  · rw [← h] at ha
    exact absurd ha hnew
  split at h
  all_goals
    have h2 := congrArg Prod.snd h
    simp only at h2
    rw [← h2] at ha
    simp only [List.mem_append] at ha
    cases ha with
    | inl hk => exact absurd (List.mem_of_mem_filter hk) hnew
    | inr hr =>
      obtain ⟨d, hd, hd1, hd2, hd3⟩ := insertAnswers_mem _ _ _ _ _ _ hr
      exact ⟨d, hd, hd1, hd2, hd3⟩

/-- Witness for C1 at the concrete out-of-range submission: the stored row
matches the client datum verbatim. -/
theorem c1_flag_caller_supplied_witness :
    ∃ d ∈ exReq1.user_answers,
      d.exercise_id = "e1" ∧ (7 : Int) = d.selected_answer ∧
      true = d.is_correct := by
  have ha : (⟨20, 10, "e1", 7, true, 5⟩ : AnswerRow)
      ∈ (save_student_answers exSt1 1 exReq1 5).2.answers := by decide
  have h := c1_flag_caller_supplied exSt1 1 exReq1 5
    (save_student_answers exSt1 1 exReq1 5) rfl _ ha (by decide)
  exact h

/-- C2 counterexample: module `m1` holds exercise `e1`, and after a
student submission a `UserAnswer` row references `e1` — the situation in
which the claim demands a blocking integrity error with every row left
unchanged. Yet `DELETE /modules/m1` (the live, first-registered route,
which calls the unguarded `db_service.delete_module`) succeeds, and the
module row, its exercise and the referencing answer are all destroyed. -/
theorem c2_counterexample :
    ((save_student_answers exSt2 1 exReq2 5).2.answers.map
      (fun a => (a.exerciseId, a.progressId))) = [("e1", 10)] ∧
    (exSt2.exercises.map (fun e => (e.id, e.moduleId))) = [("e1", "m1")] ∧
    (delete_module (save_student_answers exSt2 1 exReq2 5).2 "m1").1
        = DeleteOutcome.ok ∧
    (delete_module (save_student_answers exSt2 1 exReq2 5).2 "m1").2.answers = [] ∧
    ((delete_module (save_student_answers exSt2 1 exReq2 5).2 "m1").2.modules.map
      (fun m => m.id)) = ["m2"] := by
  exact ⟨rfl, rfl, rfl, rfl, rfl⟩

/-- C2 as amended: the live `DELETE /modules/{module_id}` route (the first
of the two registrations of that path, which calls the unguarded
`db_service.delete_module`) reports not-found with the store unchanged when
the module id is unknown; for an existing module it ALWAYS succeeds — even
when `UserAnswer` rows reference the module's exercises, so the
integrity/conflict error of the claim never occurs — and removes exactly
the module row, its panels, its exercises, its progress rows, and every
`UserAnswer` row that references one of its exercises (Pony cascade) or
sits on one of its progress records (explicit loop); rows of other modules
survive. -/
theorem c2_delete_module (st : DBState) (mid : String) :
    ((¬ ∃ m ∈ st.modules, m.id = mid) →
      delete_module st mid = (DeleteOutcome.notFound, st)) ∧
    ((∃ m ∈ st.modules, m.id = mid) →
      (delete_module st mid).1 = DeleteOutcome.ok ∧
      (∀ m2, m2 ∈ (delete_module st mid).2.modules ↔
        m2 ∈ st.modules ∧ m2.id ≠ mid) ∧
      (∀ pa, pa ∈ (delete_module st mid).2.panels ↔
        pa ∈ st.panels ∧ pa.moduleId ≠ mid) ∧
      (∀ e, e ∈ (delete_module st mid).2.exercises ↔
        e ∈ st.exercises ∧ e.moduleId ≠ mid) ∧
      (∀ p, p ∈ (delete_module st mid).2.progresses ↔
        p ∈ st.progresses ∧ p.moduleId ≠ mid) ∧
      (∀ a, a ∈ (delete_module st mid).2.answers ↔ a ∈ st.answers ∧
        (¬ ∃ e ∈ st.exercises, e.moduleId = mid ∧ e.id = a.exerciseId) ∧
        (¬ ∃ p ∈ st.progresses, p.moduleId = mid ∧ p.id = a.progressId))) := by
  constructor
  · intro hno
    have hfind : st.modules.find? (fun m => m.id = mid) = none := by
      rw [List.find?_eq_none]
      intro m hm
      simp only [decide_eq_true_eq]
      exact fun he => hno ⟨m, hm, he⟩
    rw [delete_module, hfind]
  · intro hyes
    have hsome : (st.modules.find? (fun m => m.id = mid)).isSome := by
      rw [List.find?_isSome]
      obtain ⟨m, hm, he⟩ := hyes
      exact ⟨m, hm, by simp [he]⟩
    obtain ⟨m0, hfind⟩ := Option.isSome_iff_exists.mp hsome
    rw [delete_module, hfind]
    refine ⟨rfl, ?_, ?_, ?_, ?_, ?_⟩
    · intro m2
      simp [List.mem_filter]
    · intro pa
      simp [List.mem_filter]
    · intro e
      simp [List.mem_filter]
    · intro p
      simp [List.mem_filter]
    · intro a
      simp only [List.mem_filter, decide_eq_true_eq]
      constructor
      · rintro ⟨hmem, hcond⟩
        refine ⟨hmem, ?_, ?_⟩
        · rintro ⟨e, hemem, hemod, heid⟩
          apply hcond.1
          exact List.find?_isSome.mpr
            ⟨e, List.mem_filter.mpr ⟨hemem, by simp [hemod]⟩, by simp [heid]⟩
        · rintro ⟨p, hpmem, hpmod, hpid⟩
          apply hcond.2
          exact List.find?_isSome.mpr
            ⟨p, List.mem_filter.mpr ⟨hpmem, by simp [hpmod]⟩, by simp [hpid]⟩
      · rintro ⟨hmem, hne, hnp⟩
        refine ⟨hmem, ?_, ?_⟩
        · intro hsome2
          obtain ⟨e, hemem, heid⟩ := List.find?_isSome.mp hsome2
          have hm2 := List.mem_filter.mp hemem
          exact hne ⟨e, hm2.1, by simpa using hm2.2, by simpa using heid⟩
        · intro hsome2
          obtain ⟨p, hpmem2, hpid⟩ := List.find?_isSome.mp hsome2
          have hpm := List.mem_filter.mp hpmem2
          exact hnp ⟨p, hpm.1, by simpa using hpm.2, by simpa using hpid⟩

/-- Witness for C2 at concrete stores: deleting a module whose exercise is
referenced by a stored answer succeeds (no block) and the referencing
answer row is gone, while deleting an absent module reports not-found. -/
theorem c2_delete_module_witness :
    (delete_module (save_student_answers exSt2 1 exReq2 5).2 "m1").1
        = DeleteOutcome.ok ∧
    ¬ ((⟨20, 10, "e1", 0, true, 5⟩ : AnswerRow) ∈
        (delete_module (save_student_answers exSt2 1 exReq2 5).2 "m1").2.answers) ∧
    delete_module exSt1 "zzz" = (DeleteOutcome.notFound, exSt1) := by
  have h := (c2_delete_module (save_student_answers exSt2 1 exReq2 5).2 "m1").2
    (by decide)
  refine ⟨h.1, ?_, (c2_delete_module exSt1 "zzz").1 (by decide)⟩
  intro hmem
  have h2 := (h.2.2.2.2.2 (⟨20, 10, "e1", 0, true, 5⟩ : AnswerRow)).mp hmem
  exact h2.2.1 (by decide)

/-- The head surviving a `dropWhile` fails the predicate. -/
theorem dropWhile_ne_head (p : α → Bool) :
    ∀ (l : List α) (x : α) (t : List α), l.dropWhile p = x :: t → p x = false
  | [], x, t, h => by simp at h
  | c :: cs, x, t, h => by
    rw [List.dropWhile_cons] at h
    by_cases hc : p c = true
    · rw [if_pos hc] at h
      exact dropWhile_ne_head p cs x t h
    · rw [if_neg hc] at h
      injection h with h1 h2
      rw [← h1]
      exact Bool.not_eq_true _ ▸ hc

/-- A strip is empty exactly when the text is all whitespace. -/
theorem pyStrip_eq_nil_iff (cs : List Char) :
    pyStrip cs = [] ↔ ∀ c ∈ cs, pyWs c := by
  constructor
  · intro h c hc
    rw [pyStrip, List.reverse_eq_nil_iff, List.dropWhile_eq_nil_iff] at h
    rcases List.mem_append.mp (by
        rw [List.takeWhile_append_dropWhile (p := pyWs) (l := cs)]
        exact hc : c ∈ cs.takeWhile pyWs ++ cs.dropWhile pyWs) with h1 | h1
    · exact List.mem_takeWhile_imp h1
    · exact h c (List.mem_reverse.mpr h1)
  · intro h
    rw [pyStrip, List.reverse_eq_nil_iff, List.dropWhile_eq_nil_iff]
    intro x hx
    rw [List.mem_reverse] at hx
    exact h x (List.dropWhile_sublist pyWs |>.mem hx)

/-- A matched JSON span starts with an opening bracket. -/
theorem extractJsonSpan_head (cs sp : List Char)
    (h : extractJsonSpan? cs = some sp) : ∃ t, sp = '[' :: t := by
  rw [extractJsonSpan?] at h
  by_cases h0 : cs.reverse.dropWhile (fun c => c ≠ ']') = []
  · rw [if_pos h0] at h
    cases h
  · rw [if_neg h0] at h
    cases hdrop : ((cs.reverse.dropWhile (fun c => c ≠ ']')).reverse.dropWhile
        (fun c => c ≠ '[')) with
    | nil =>
      rw [hdrop] at h
      cases h
    | cons x t =>
      rw [hdrop] at h
      have h2 : some (x :: t) = some sp := h
      injection h2 with h2
      have hx := dropWhile_ne_head _ _ _ _ hdrop
      simp only [decide_eq_false_iff_not, not_not] at hx
      exact ⟨t, by rw [← h2, hx]⟩

/-- All-whitespace text contains no markdown question header. -/
theorem allWs_findMdHeader : ∀ (cs : List Char), (∀ c ∈ cs, pyWs c) →
    findMdHeader cs = none
  | [], _ => rfl
  | c :: cs, h => by
    have hc : pyWs c := h c (List.mem_cons_self c cs)
    have hne : ('#' = c) = False := by
      refine eq_false ?_
      intro he
      rw [← he] at hc
      exact absurd hc (by decide)
    have hhd : mdHeader? (c :: cs) = none := by
      rw [mdHeader?]
      have : exactPrefix "###".data (c :: cs) = none := by
        show exactPrefix ('#' :: '#' :: '#' :: []) (c :: cs) = none
        rw [exactPrefix, if_neg (by rw [hne]; exact id)]
      rw [this]
    rw [findMdHeader, hhd, allWs_findMdHeader cs (fun x hx => h x (List.mem_cons_of_mem c hx))]

/-- All-whitespace text yields no markdown exercises. -/
theorem allWs_parse_markdown (cs : List Char) (nq : Nat)
    (h : ∀ c ∈ cs, pyWs c) : parse_markdown_exercises cs nq = [] := by
  have hseg : ∀ f, mdSegmentsGo f cs = [cs] := by
    intro f
    cases f with
    | zero => rfl
    | succ n => rw [mdSegmentsGo, allWs_findMdHeader cs h]
  rw [parse_markdown_exercises, mdBlocks, hseg]
  simp

/-- Each tier's error string sits inside the aggregated failure message. -/
theorem parseFailMsg_infix (e1 e2 e3 : String) :
    e1.data <:+: (parseFailMsg e1 e2 e3).data ∧
    e2.data <:+: (parseFailMsg e1 e2 e3).data ∧
    e3.data <:+: (parseFailMsg e1 e2 e3).data := by
  refine ⟨⟨"Model mengembalikan data yang tidak bisa di-parse.\nOriginal JSON error: ".data,
      ("\nFix attempt: " ++ e2 ++ "\nMarkdown parser: " ++ e3).data, ?_⟩,
    ⟨("Model mengembalikan data yang tidak bisa di-parse.\nOriginal JSON error: "
        ++ e1 ++ "\nFix attempt: ").data,
      ("\nMarkdown parser: " ++ e3).data, ?_⟩,
    ⟨("Model mengembalikan data yang tidak bisa di-parse.\nOriginal JSON error: "
        ++ e1 ++ "\nFix attempt: " ++ e2 ++ "\nMarkdown parser: ").data, [], ?_⟩⟩ <;>
    simp only [parseFailMsg, String.data_append, List.append_assoc, List.append_nil]

/-- C4: the recovery chain attempts direct decode, repair-then-decode, and
the markdown scan in that order with the first success winning; it fails
only when all three tiers fail (tier 3 failing means zero usable records),
and the failure message then carries each tier's own error as a substring.
A cleaned-empty input short-circuits to the empty-response error before any
tier, and on such input every tier would fail anyway: the direct decode of
the empty text errors and the markdown scan of the all-whitespace response
yields zero records. -/
theorem c4_recovery_tiers (text : String) (nq : Nat) :
    (cleanJsonText (cleanedResponse text.data) = [] →
      recover_exercises text nq = Except.error emptyRespError ∧
      jsonLoads (String.mk (cleanJsonText (cleanedResponse text.data))) =
        Except.error "Expecting value" ∧
      parse_markdown_exercises (cleanedResponse text.data) nq = []) ∧
    (cleanJsonText (cleanedResponse text.data) ≠ [] →
      (∀ v, jsonLoads (String.mk (cleanJsonText (cleanedResponse text.data))) =
          Except.ok v →
        recover_exercises text nq = Except.ok v) ∧
      (∀ e1 v, jsonLoads (String.mk (cleanJsonText (cleanedResponse text.data))) =
          Except.error e1 →
        jsonLoads (String.mk (fixJson (cleanJsonText (cleanedResponse text.data)))) =
          Except.ok v →
        recover_exercises text nq = Except.ok v) ∧
      (∀ e1 e2, jsonLoads (String.mk (cleanJsonText (cleanedResponse text.data))) =
          Except.error e1 →
        jsonLoads (String.mk (fixJson (cleanJsonText (cleanedResponse text.data)))) =
          Except.error e2 →
        parse_markdown_exercises (cleanedResponse text.data) nq ≠ [] →
        recover_exercises text nq = Except.ok (Json.arr
          ((parse_markdown_exercises (cleanedResponse text.data) nq).map
            mdExerciseToJson))) ∧
      (∀ msg, recover_exercises text nq = Except.error msg →
        ∃ e1 e2,
          jsonLoads (String.mk (cleanJsonText (cleanedResponse text.data))) =
            Except.error e1 ∧
          jsonLoads (String.mk (fixJson (cleanJsonText (cleanedResponse text.data)))) =
            Except.error e2 ∧
          parse_markdown_exercises (cleanedResponse text.data) nq = [] ∧
          e1.data <:+: msg.data ∧ e2.data <:+: msg.data ∧
          mdEmptyError.data <:+: msg.data)) := by
  constructor
  · intro hempty
    refine ⟨?_, ?_, ?_⟩
    · unfold recover_exercises
      rw [if_pos hempty]
    · rw [hempty]
      rfl
    · have hws : ∀ c ∈ cleanedResponse text.data, pyWs c := by
        cases hsp : extractJsonSpan? (cleanedResponse text.data) with
        | some sp =>
          exfalso
          obtain ⟨t, rfl⟩ := extractJsonSpan_head _ _ hsp
          rw [cleanJsonText, hsp] at hempty
          have := (pyStrip_eq_nil_iff _).mp hempty '[' (List.mem_cons_self _ _)
          exact absurd this (by decide)
        | none =>
          rw [cleanJsonText, hsp] at hempty
          exact (pyStrip_eq_nil_iff _).mp hempty
      exact allWs_parse_markdown _ nq hws
  · intro hne
    refine ⟨?_, ?_, ?_, ?_⟩
    · intro v hv
      unfold recover_exercises
      rw [if_neg hne, hv]
    · intro e1 v h1 h2
      unfold recover_exercises
      rw [if_neg hne, h1, h2]
    · intro e1 e2 h1 h2 hmd
      unfold recover_exercises
      rw [if_neg hne, h1, h2]
      dsimp only
      rw [if_neg (by simpa using hmd)]
    · intro msg hmsg
      unfold recover_exercises at hmsg
      rw [if_neg hne] at hmsg
      cases hj1 : jsonLoads (String.mk (cleanJsonText (cleanedResponse text.data))) with
      | ok v => rw [hj1] at hmsg; simp at hmsg
      | error e1 =>
        rw [hj1] at hmsg
        cases hj2 : jsonLoads
            (String.mk (fixJson (cleanJsonText (cleanedResponse text.data)))) with
        | ok v => rw [hj2] at hmsg; simp at hmsg
        | error e2 =>
          rw [hj2] at hmsg
          dsimp only at hmsg
          by_cases hmd :
              (parse_markdown_exercises (cleanedResponse text.data) nq).isEmpty = true
          · rw [if_pos hmd] at hmsg
            injection hmsg with hmsg
            obtain ⟨i1, i2, i3⟩ := parseFailMsg_infix e1 e2 mdEmptyError
            rw [hmsg] at i1 i2 i3
            exact ⟨e1, e2, rfl, rfl, by simpa using hmd, i1, i2, i3⟩
          · rw [if_neg hmd] at hmsg
            simp at hmsg

/-- Witness for C4 on an input where every tier fails: the chain reports the
combined message, each tier error inside it. -/
theorem c4_recovery_tiers_witness :
    ∃ e1 e2,
      jsonLoads (String.mk (cleanJsonText (cleanedResponse "garbage".data))) =
        Except.error e1 ∧
      jsonLoads (String.mk (fixJson (cleanJsonText (cleanedResponse "garbage".data)))) =
        Except.error e2 ∧
      parse_markdown_exercises (cleanedResponse "garbage".data) 5 = [] ∧
      e1.data <:+: (parseFailMsg "Expecting value" "Expecting value" mdEmptyError).data ∧
      e2.data <:+: (parseFailMsg "Expecting value" "Expecting value" mdEmptyError).data ∧
      mdEmptyError.data <:+:
        (parseFailMsg "Expecting value" "Expecting value" mdEmptyError).data := by
  exact ((c4_recovery_tiers "garbage" 5).2 (by decide)).2.2.2
    (parseFailMsg "Expecting value" "Expecting value" mdEmptyError) rfl

end Elearn
